import Mathlib

/-!
# Formal model of the NIOS smart-test attempt engine

A shallow embedding of the server-side core of the `nios-smart-test`
repository: the `test-operations` edge function (attempt creation, response
recording, attempt completion, results assembly), the `verify-candidate`
edge function (input validation, wildcard rejection, roster lookup, rate
limiting), and the database schema facts the two functions rely on.

Modelling conventions:
* The Postgres database is a record of lists of rows (`DB`), one list per
  table of the migration schema.  Row lookups by primary key (`.eq('id',…)
  .single()` / `.maybeSingle()`) are modelled with `List.find?` on the row
  lists; inserts append to the row list; updates map over it.
* Timestamps are abstract `Nat` instants supplied by the caller of each
  operation (the code reads the wall clock).
* Fallible operations return `Except Err (DB × payload)`; an `Err` value
  corresponds to a non-2xx JSON error response of the edge function, with
  constructors grouped by the response's meaning rather than its HTTP code.
* JavaScript floating point arithmetic in the score computation
  (`Math.round((correct / total) * 100)`) is modelled as exact rational
  arithmetic over `Nat`.
* JavaScript strings are Lean `String`s; the few string primitives used
  (`trim`, `toLowerCase`, `includes`, the UUID regular expression, the
  phone regular expression) are defined below over the character list of
  the string, restricted to the ASCII behaviour relevant to this code.
-/

namespace NiosTest

/-- `test_status` enum of the `candidates` table. -/
inductive TestStatus where
  | NOT_ATTEMPTED
  | ATTEMPTED
deriving DecidableEq, Repr

/-- Error responses of the two edge functions, grouped by meaning:
`validation` are the 400 responses for malformed input, `notFound` the 404
responses, `alreadyAttempted` the 400 "Candidate has already attempted the
test" conflict, `alreadyCompleted` the 400 "Test attempt already completed"
conflict, and `notCompleted` the 400 "Test is not yet completed" response
of `get_results`. -/
inductive Err where
  | validation (msg : String)
  | notFound (msg : String)
  | alreadyAttempted
  | alreadyCompleted
  | notCompleted
deriving DecidableEq, Repr

/-- Row of the `candidates` table. -/
structure Candidate where
  id : String
  full_name : String
  email : String
  phone : String
  test_status : TestStatus
deriving DecidableEq, Repr

/-- Row of the `sections` table. -/
structure TSection where
  id : String
  name : String
  display_order : Int
deriving DecidableEq, Repr

/-- Row of the `questions` table. -/
structure Question where
  id : String
  section_id : String
  question_text : String
  option_a : String
  option_b : String
  option_c : String
  option_d : String
  correct_answer : String
  time_limit : Nat
deriving DecidableEq, Repr

/-- Row of the `test_attempts` table. -/
structure TestAttempt where
  id : String
  candidate_id : String
  started_at : Nat
  completed_at : Option Nat
  total_questions : Nat
  correct_answers : Nat
  incorrect_answers : Nat
  total_score : Nat
deriving DecidableEq, Repr

/-- Row of the `question_responses` table. -/
structure QuestionResponse where
  id : String
  attempt_id : String
  question_id : String
  selected_answer : Option String
  is_correct : Bool
  time_taken : Nat
deriving DecidableEq, Repr

/-- The database: one list of rows per table of the migration schema. -/
structure DB where
  candidates : List Candidate
  sections : List TSection
  questions : List Question
  attempts : List TestAttempt
  responses : List QuestionResponse
deriving DecidableEq, Repr

/-! ## String primitives used by the edge functions -/

/-- A hexadecimal digit, as accepted by the `[0-9a-f]` character class of
the case-insensitive UUID regular expression. -/
def isHexDigit (c : Char) : Bool :=
  c.isDigit || ('a' ≤ c && c ≤ 'f') || ('A' ≤ c && c ≤ 'F')

/-- Consume exactly `n` hexadecimal digits from the front of a character
list, returning the remainder. -/
def takeHex : Nat → List Char → Option (List Char)
  | 0, l => some l
  | _ + 1, [] => none
  | n + 1, c :: l => if isHexDigit c then takeHex n l else none

/-- Consume a literal `-` from the front of a character list. -/
def expectDash : List Char → Option (List Char)
  | '-' :: l => some l
  | _ => none

/-- The anchored UUID test
`/^[0-9a-f]{8}-[0-9a-f]{4}-[0-9a-f]{4}-[0-9a-f]{4}-[0-9a-f]{12}$/i`
used by the `test-operations` function to validate every id. -/
def uuidTest (s : String) : Bool :=
  match takeHex 8 s.data >>= expectDash >>= takeHex 4 >>= expectDash >>=
        takeHex 4 >>= expectDash >>= takeHex 4 >>= expectDash >>= takeHex 12 with
  | some [] => true
  | _ => false

/-- JavaScript `String.prototype.includes` for a single character. -/
def strContains (s : String) (c : Char) : Bool :=
  s.data.any (fun d => d = c)

/-- ASCII lowering of one character, the fragment of JavaScript
`String.prototype.toLowerCase` (and of Postgres `lower`) relevant to this
code. -/
def lowerChar (c : Char) : Char :=
  match c with
  | 'A' => 'a' | 'B' => 'b' | 'C' => 'c' | 'D' => 'd' | 'E' => 'e'
  | 'F' => 'f' | 'G' => 'g' | 'H' => 'h' | 'I' => 'i' | 'J' => 'j'
  | 'K' => 'k' | 'L' => 'l' | 'M' => 'm' | 'N' => 'n' | 'O' => 'o'
  | 'P' => 'p' | 'Q' => 'q' | 'R' => 'r' | 'S' => 's' | 'T' => 't'
  | 'U' => 'u' | 'V' => 'v' | 'W' => 'w' | 'X' => 'x' | 'Y' => 'y'
  | 'Z' => 'z'
  | d => d

/-- Case lowering of a whole string. -/
def strToLower (s : String) : String :=
  ⟨s.data.map lowerChar⟩

/-- Whitespace characters stripped by `String.prototype.trim`, restricted
to the ASCII ones. -/
def isJsSpace (c : Char) : Bool :=
  c = ' ' || c = '\t' || c = '\n' || c = '\r'

/-- Strip leading and trailing whitespace from a character list. -/
def trimList (l : List Char) : List Char :=
  ((l.dropWhile isJsSpace).reverse.dropWhile isJsSpace).reverse

/-- JavaScript `String.prototype.trim`. -/
def strTrim (s : String) : String :=
  ⟨trimList s.data⟩

/-- The anchored phone test `/^[0-9]{10}$/`. -/
def isTenDigits (s : String) : Bool :=
  s.data.length = 10 && s.data.all (fun c => c.isDigit)

/-! ## The `test-operations` edge function -/

/-- Id handed out by the database for a freshly inserted attempt row
(`gen_random_uuid()` in the schema); modelled deterministically. -/
def genAttemptId (db : DB) : String :=
  "attempt-" ++ toString db.attempts.length

/-- Id handed out by the database for a freshly inserted response row. -/
def genResponseId (db : DB) : String :=
  "response-" ++ toString db.responses.length

/-- `create_attempt` action of `test-operations`: validate the inputs,
look the candidate up, reject if missing or already `ATTEMPTED`, insert a
zeroed attempt row, then mark the candidate `ATTEMPTED`.  `totalQuestions`
is an `Int` because the code only validates `typeof totalQuestions ===
'number' && totalQuestions >= 0`. -/
def create_attempt (db : DB) (candidateId : String) (totalQuestions : Int)
    (now : Nat) : Except Err (DB × TestAttempt) :=
  if candidateId = "" then
    .error (.validation "Valid candidateId is required")
  else if ¬ uuidTest candidateId then
    .error (.validation "Invalid candidateId format")
  else if totalQuestions < 0 then
    .error (.validation "Valid totalQuestions is required")
  else
    match db.candidates.find? (fun c => c.id == candidateId) with
    | none => .error (.notFound "Candidate not found")
    | some candidate =>
      if candidate.test_status = .ATTEMPTED then
        .error .alreadyAttempted
      else
        let attempt : TestAttempt :=
          { id := genAttemptId db
            candidate_id := candidateId
            started_at := now
            completed_at := none
            total_questions := totalQuestions.toNat
            correct_answers := 0
            incorrect_answers := 0
            total_score := 0 }
        let db1 : DB := { db with attempts := db.attempts ++ [attempt] }
        let db2 : DB :=
          { db1 with
            candidates := db1.candidates.map (fun c =>
              if c.id == candidateId then { c with test_status := .ATTEMPTED } else c) }
        .ok (db2, attempt)

/-- The `save_response` input check
`selectedAnswer !== null && !['A','B','C','D'].includes(selectedAnswer)`. -/
def badSelectedAnswer (selectedAnswer : Option String) : Bool :=
  match selectedAnswer with
  | none => false
  | some s => !(["A", "B", "C", "D"].contains s)

/-- The server-side correctness computation of `save_response`:
`selectedAnswer !== null && selectedAnswer === question.correct_answer`. -/
def computeIsCorrect (selectedAnswer : Option String) (question : Question) : Bool :=
  match selectedAnswer with
  | none => false
  | some s => s == question.correct_answer

/-- `save_response` action of `test-operations`.  `clientIsCorrect` models
the `isCorrect` field the web client puts in the request body; the edge
function never reads it. -/
def save_response (db : DB) (attemptId questionId : String)
    (selectedAnswer : Option String) (timeTaken : Int)
    (clientIsCorrect : Option Bool) : Except Err (DB × QuestionResponse) :=
  if attemptId = "" ∨ ¬ uuidTest attemptId then
    .error (.validation "Valid attemptId is required")
  else if questionId = "" ∨ ¬ uuidTest questionId then
    .error (.validation "Valid questionId is required")
  else if timeTaken < 0 then
    .error (.validation "Valid timeTaken is required")
  else if badSelectedAnswer selectedAnswer then
    .error (.validation "selectedAnswer must be A, B, C, D, or null")
  else
    match db.attempts.find? (fun a => a.id == attemptId) with
    | none => .error (.notFound "Test attempt not found")
    | some attempt =>
      if attempt.completed_at.isSome then
        .error .alreadyCompleted
      else
        match db.questions.find? (fun q => q.id == questionId) with
        | none => .error (.notFound "Question not found")
        | some question =>
          let isCorrect : Bool := computeIsCorrect selectedAnswer question
          let response : QuestionResponse :=
            { id := genResponseId db
              attempt_id := attemptId
              question_id := questionId
              selected_answer := selectedAnswer
              is_correct := isCorrect
              time_taken := timeTaken.toNat }
          .ok ({ db with responses := db.responses ++ [response] }, response)

/-- `Math.round((correct / total) * 100)` for `total > 0`, computed as the
exact rational rounded half-up: `⌊100·correct/total + 1/2⌋`. -/
def scorePercent (correct total : Nat) : Nat :=
  (200 * correct + total) / (2 * total)

/-- `complete_attempt` action of `test-operations`: re-derive the counters
from the stored responses, compute the score, stamp `completed_at`, and
re-assert the candidate's `ATTEMPTED` status.  The fallback chain
`attempt.total_questions || responses?.length || 0` is modelled by the
nested conditionals on zero, since `0` is falsy in JavaScript. -/
def complete_attempt (db : DB) (attemptId : String) (now : Nat) :
    Except Err (DB × TestAttempt) :=
  if attemptId = "" ∨ ¬ uuidTest attemptId then
    .error (.validation "Valid attemptId is required")
  else
    match db.attempts.find? (fun a => a.id == attemptId) with
    | none => .error (.notFound "Test attempt not found")
    | some attempt =>
      if attempt.completed_at.isSome then
        .error .alreadyCompleted
      else
        let responses := db.responses.filter (fun r => r.attempt_id == attemptId)
        let correctAnswers := (responses.filter (fun r => r.is_correct)).length
        let incorrectAnswers := (responses.filter (fun r => !r.is_correct)).length
        let totalQuestions :=
          if attempt.total_questions ≠ 0 then attempt.total_questions
          else responses.length
        let totalScore :=
          if totalQuestions > 0 then scorePercent correctAnswers totalQuestions else 0
        let updated : TestAttempt :=
          { attempt with
            completed_at := some now
            correct_answers := correctAnswers
            incorrect_answers := incorrectAnswers
            total_score := totalScore }
        let db1 : DB :=
          { db with
            attempts := db.attempts.map (fun a => if a.id == attemptId then updated else a) }
        let db2 : DB :=
          { db1 with
            candidates := db1.candidates.map (fun c =>
              if c.id == attempt.candidate_id then { c with test_status := .ATTEMPTED } else c) }
        .ok (db2, updated)

/-- One entry of the `detailedQuestions` array built by `get_results`;
fields coming from the joined question row are optional because the code
reads them through `question?.…` after a `find` that can miss. -/
structure DetailedQuestion where
  id : String
  question_text : Option String
  option_a : Option String
  option_b : Option String
  option_c : Option String
  option_d : Option String
  correct_answer : Option String
  section_name : Option String
  selected_answer : Option String
  is_correct : Bool
  time_taken : Nat
deriving DecidableEq, Repr

/-- One entry of the `sectionScores` array built by `get_results`. -/
structure SectionScore where
  sectionName : String
  total : Nat
  correct : Nat
deriving DecidableEq, Repr

/-- The `get_results` success payload. -/
structure ResultsPayload where
  attempt : TestAttempt
  detailedQuestions : List DetailedQuestion
  sectionScores : List SectionScore
deriving DecidableEq, Repr

/-- The `sections` read of `get_results`:
`.order('display_order', { ascending: true })`, modelled as a stable sort
of the stored rows on `display_order`. -/
def sortSections (l : List TSection) : List TSection :=
  l.insertionSort (fun a b => a.display_order ≤ b.display_order)

instance : IsTotal TSection (fun s₁ s₂ => s₁.display_order ≤ s₂.display_order) :=
  ⟨fun a b => Int.le_total a.display_order b.display_order⟩

instance : IsTrans TSection (fun s₁ s₂ => s₁.display_order ≤ s₂.display_order) :=
  ⟨fun _ _ _ hab hbc => le_trans hab hbc⟩

/-- `get_results` action of `test-operations`: reject if the attempt is
missing or not yet completed, then join every stored response of the
attempt against the full question rows (revealing `correct_answer`), and
aggregate a per-section score over the sections in display order. -/
def get_results (db : DB) (attemptId : String) : Except Err ResultsPayload :=
  if attemptId = "" ∨ ¬ uuidTest attemptId then
    .error (.validation "Valid attemptId is required")
  else
    match db.attempts.find? (fun a => a.id == attemptId) with
    | none => .error (.notFound "Test attempt not found")
    | some attempt =>
      if attempt.completed_at.isNone then
        .error .notCompleted
      else
        let responses := db.responses.filter (fun r => r.attempt_id == attemptId)
        let detailedQuestions := responses.map (fun r =>
          let question := db.questions.find? (fun q => q.id == r.question_id)
          { id := r.question_id
            question_text := question.map (fun q => q.question_text)
            option_a := question.map (fun q => q.option_a)
            option_b := question.map (fun q => q.option_b)
            option_c := question.map (fun q => q.option_c)
            option_d := question.map (fun q => q.option_d)
            correct_answer := question.map (fun q => q.correct_answer)
            section_name := question.bind (fun q =>
              (db.sections.find? (fun s => s.id == q.section_id)).map (fun s => s.name))
            selected_answer := r.selected_answer
            is_correct := r.is_correct
            time_taken := r.time_taken : DetailedQuestion })
        let sectionScores := (sortSections db.sections).map (fun s =>
          let sectionQuestions := db.questions.filter (fun q => q.section_id == s.id)
          let sectionResponses := responses.filter (fun r =>
            sectionQuestions.any (fun q => q.id == r.question_id))
          { sectionName := s.name
            total := sectionQuestions.length
            correct := (sectionResponses.filter (fun r => r.is_correct)).length : SectionScore })
        .ok { attempt := attempt
              detailedQuestions := detailedQuestions
              sectionScores := sectionScores }

/-! ## Interleaved execution of `create_attempt` (C1)

The database section of `create_attempt` performs three separate database
accesses — read the candidate row, insert the attempt row, update the
candidate's status — with no conditional write or transaction around them.
To examine concurrent calls, each call is modelled as a small state machine
whose atomic unit is one database access, and a scheduler interleaves the
steps of several calls over the shared database. -/

/-- The pending input of one in-flight `create_attempt` call. -/
structure PendingCall where
  candidateId : String
  totalQuestions : Int
  startedAt : Nat
deriving DecidableEq, Repr

deriving instance DecidableEq for Except

/-- Progress of one in-flight `create_attempt` call: before its candidate
read, holding the read result, after its attempt insert, or finished. -/
inductive CallPhase where
  | ready
  | readDone (candidate : Option Candidate)
  | inserted (attempt : TestAttempt)
  | finished (result : Except Err TestAttempt)
deriving DecidableEq, Repr

/-- One atomic database access of an in-flight `create_attempt` call.
The input validation (pure, no database access) runs before the first
read; the status check on the read row (pure) runs together with the
insert that follows it, exactly as in the code, where no database access
separates them. -/
def stepCall (db : DB) (call : PendingCall) (ph : CallPhase) : DB × CallPhase :=
  match ph with
  | .ready =>
    if call.candidateId = "" ∨ ¬ uuidTest call.candidateId then
      (db, .finished (.error (.validation "Valid candidateId is required")))
    else if call.totalQuestions < 0 then
      (db, .finished (.error (.validation "Valid totalQuestions is required")))
    else
      (db, .readDone (db.candidates.find? (fun c => c.id == call.candidateId)))
  | .readDone none => (db, .finished (.error (.notFound "Candidate not found")))
  | .readDone (some candidate) =>
    if candidate.test_status = .ATTEMPTED then
      (db, .finished (.error .alreadyAttempted))
    else
      let attempt : TestAttempt :=
        { id := genAttemptId db
          candidate_id := call.candidateId
          started_at := call.startedAt
          completed_at := none
          total_questions := call.totalQuestions.toNat
          correct_answers := 0
          incorrect_answers := 0
          total_score := 0 }
      ({ db with attempts := db.attempts ++ [attempt] }, .inserted attempt)
  | .inserted attempt =>
    ({ db with
       candidates := db.candidates.map (fun c =>
         if c.id == call.candidateId then { c with test_status := .ATTEMPTED } else c) },
     .finished (.ok attempt))
  | .finished r => (db, .finished r)

/-- Run a schedule: each entry names the call whose next atomic database
access executes. -/
def runSchedule (db : DB) (calls : List (PendingCall × CallPhase)) :
    List Nat → DB × List (PendingCall × CallPhase)
  | [] => (db, calls)
  | i :: rest =>
    match calls[i]? with
    | none => runSchedule db calls rest
    | some (call, ph) =>
      let s := stepCall db call ph
      runSchedule s.1 (calls.set i (call, s.2)) rest

/-- Whether an in-flight call has finished successfully. -/
def isSuccess (p : PendingCall × CallPhase) : Bool :=
  match p.2 with
  | .finished (.ok _) => true
  | _ => false

/-! ## The `verify-candidate` edge function -/

/-- `checkRateLimit`'s per-identifier window entry. -/
structure RateLimitEntry where
  count : Nat
  resetAt : Nat
deriving DecidableEq, Repr

/-- The module-level `rateLimits` map, modelled functionally. -/
def RateMap : Type := String → Option RateLimitEntry

/-- `Map.prototype.set`. -/
def rateSet (m : RateMap) (k : String) (v : RateLimitEntry) : RateMap :=
  fun k' => if k' = k then some v else m k'

/-- `checkRateLimit(identifier, maxRequests, windowMs)` at instant `now`:
start a fresh window on a missing or expired entry; reject without
touching the map once the count reaches the budget; otherwise increment. -/
def checkRateLimit (m : RateMap) (identifier : String)
    (maxRequests windowMs now : Nat) : Bool × RateMap :=
  match m identifier with
  | none => (true, rateSet m identifier ⟨1, now + windowMs⟩)
  | some limit =>
    if now > limit.resetAt then
      (true, rateSet m identifier ⟨1, now + windowMs⟩)
    else if limit.count ≥ maxRequests then
      (false, m)
    else
      (true, rateSet m identifier ⟨limit.count + 1, limit.resetAt⟩)

/-- Feed a list of request instants for one identifier through
`checkRateLimit`, collecting the allow/reject verdicts. -/
def runRequests (m : RateMap) (identifier : String) (maxRequests windowMs : Nat) :
    List Nat → List Bool × RateMap
  | [] => ([], m)
  | t :: ts =>
    let s := checkRateLimit m identifier maxRequests windowMs t
    let r := runRequests s.2 identifier maxRequests windowMs ts
    (s.1 :: r.1, r.2)

/-- Budget the `verify-candidate` function passes to `checkRateLimit`:
5 requests. -/
def verifyMaxRequests : Nat := 5

/-- Window the `verify-candidate` function passes to `checkRateLimit`:
60000 milliseconds. -/
def verifyWindowMs : Nat := 60000

/-- Outcome of the body of the `verify-candidate` function (after its rate
limit check): the four 400 validation responses, the 500 database-error
response, the `found: false` response, and the `found: true` response. -/
inductive VerifyResult where
  | invalidName
  | invalidEmail
  | invalidPhone
  | invalidChars
  | dbError
  | noMatch
  | found (candidateId candidateName : String) (testStatus : TestStatus)
deriving DecidableEq, Repr

/-- Whether a `VerifyResult` is one of the 400 validation responses. -/
def VerifyResult.isValidationError : VerifyResult → Bool
  | .invalidName | .invalidEmail | .invalidPhone | .invalidChars => true
  | _ => false

/-- Postgres `ILIKE` applied to the pattern `escapeLikePattern(s)`: with
every `%`, `_` and `\` of `s` escaped, the pattern matches exactly the
rows whose column equals `s` case-insensitively. -/
def ilikeEscaped (column s : String) : Bool :=
  strToLower column == strToLower s

/-- The roster predicate of the `verify-candidate` query:
`.ilike('full_name', …).ilike('email', …).eq('phone', …)` on the trimmed,
escaped inputs. -/
def candidateMatches (c : Candidate) (fullName email phone : String) : Bool :=
  ilikeEscaped c.full_name (strTrim fullName) &&
  ilikeEscaped c.email (strTrim email) &&
  (c.phone == strTrim phone)

/-- Body of the `verify-candidate` function after its rate limit check:
validate the name, email and phone, reject names and emails containing a
`LIKE` wildcard, then look the candidate up with `maybeSingle` (which
errors when several rows match). -/
def verifyCandidate (db : DB) (fullName email phone : String) : VerifyResult :=
  if (strTrim fullName).data.length < 2 then
    .invalidName
  else if ¬ strContains email '@' then
    .invalidEmail
  else if ¬ isTenDigits (strTrim phone) then
    .invalidPhone
  else if strContains fullName '%' || strContains fullName '_' ||
          strContains email '%' || strContains email '_' then
    .invalidChars
  else
    match db.candidates.filter (fun c => candidateMatches c fullName email phone) with
    | [] => .noMatch
    | [c] => .found c.id c.full_name c.test_status
    | _ => .dbError

/-! ## Serialized payload keys

The JSON keys each endpoint serializes, written down from the rows the
code selects and returns; used to state which payloads carry the
`correct_answer` column. -/

/-- Keys of a serialized `test_attempts` row (returned by
`create_attempt`, `complete_attempt`, `get_attempt` and inside
`get_results`). -/
def attemptRowKeys : List String :=
  ["id", "candidate_id", "started_at", "completed_at", "total_questions",
   "correct_answers", "incorrect_answers", "total_score"]

/-- Keys of a serialized `question_responses` row (returned by
`get_responses`, and by `save_response` via `{ ...response, is_correct }`,
which leaves the key set unchanged). -/
def responseRowKeys : List String :=
  ["id", "attempt_id", "question_id", "selected_answer", "is_correct",
   "time_taken", "created_at"]

/-- Keys of one `detailedQuestions` entry of the `get_results` payload. -/
def detailedQuestionKeys : List String :=
  ["id", "question_text", "option_a", "option_b", "option_c", "option_d",
   "correct_answer", "section_name", "selected_answer", "is_correct",
   "time_taken"]

/-- Keys of one `sectionScores` entry of the `get_results` payload. -/
def sectionScoreKeys : List String :=
  ["sectionName", "total", "correct"]

/-- Columns of the `questions_public` view the migration creates for the
public question listing (the view's `SELECT` column list). -/
def questionsPublicViewKeys : List String :=
  ["id", "section_id", "question_text", "option_a", "option_b", "option_c",
   "option_d", "time_limit", "created_at"]

/-! ## Specification-side helpers -/

/-- The database visible after an operation: the written state on a
success, the untouched state on an error response. -/
def dbAfter {α : Type} (db : DB) (r : Except Err (DB × α)) : DB :=
  match r with
  | .ok p => p.1
  | .error _ => db

/-- Specification-side notion: the section a question id belongs to,
read off the question bank. -/
def sectionOfQuestion (db : DB) (qid : String) : Option String :=
  (db.questions.find? (fun q => q.id == qid)).map (fun q => q.section_id)

/-! ## Concrete instances used by the claim-level evaluations -/

/-- Candidate id of the running example (UUID-shaped, as the endpoints
require). -/
def cid0 : String := "cccccccc-cccc-cccc-cccc-cccccccccccc"

/-- Attempt id of the running example. -/
def aid0 : String := "eeeeeeee-eeee-eeee-eeee-eeeeeeeeeeee"

/-- Question id of the running example. -/
def qid0 : String := "ffffffff-ffff-ffff-ffff-ffffffffffff"

/-- A roster candidate who has not attempted the test. -/
def cand0 : Candidate :=
  ⟨cid0, "Rahul Sharma", "rahul@example.com", "9876543210", .NOT_ATTEMPTED⟩

/-- Database with just the roster candidate. -/
def db0 : DB := ⟨[cand0], [], [], [], []⟩

/-- One pending `create_attempt` call for the roster candidate. -/
def callRace : PendingCall := ⟨cid0, 8, 0⟩

/-- Two concurrent `create_attempt` calls for the same candidate run over
`db0`, with both candidate reads scheduled before either write
(schedule `[0, 1, 0, 0, 1, 1]`). -/
def raceResult : DB × List (PendingCall × CallPhase) :=
  runSchedule db0 [(callRace, .ready), (callRace, .ready)] [0, 1, 0, 0, 1, 1]

/-- A question whose correct answer is `A`. -/
def q9 : Question :=
  ⟨qid0, "s1", "What is 15 x 8?", "110", "120", "130", "140", "A", 30⟩

/-- An open attempt over two questions with no responses yet. -/
def att9 : TestAttempt := ⟨aid0, cid0, 0, none, 2, 0, 0, 0⟩

/-- Database with one open two-question attempt and one question. -/
def db9 : DB := ⟨[cand0], [], [q9], [att9], []⟩

/-- Three identical correct `save_response` submissions for the same
question of the same open attempt, followed by `complete_attempt`;
returns the final `(correct_answers, total_score)`. -/
def runC9 : Option (Nat × Nat) :=
  (save_response db9 aid0 qid0 (some "A") 5 none).toOption.bind fun p1 =>
  (save_response p1.1 aid0 qid0 (some "A") 5 none).toOption.bind fun p2 =>
  (save_response p2.1 aid0 qid0 (some "A") 5 none).toOption.bind fun p3 =>
  (complete_attempt p3.1 aid0 99).toOption.map fun p4 =>
    (p4.2.correct_answers, p4.2.total_score)

/-- An open attempt created with `total_questions = 0`. -/
def attZero : TestAttempt := ⟨aid0, cid0, 0, none, 0, 0, 0, 0⟩

/-- A stored correct response of the zero-question attempt. -/
def respZero : QuestionResponse := ⟨"response-0", aid0, qid0, some "A", true, 3⟩

/-- Database with the zero-question attempt and its one correct
response. -/
def dbZero : DB := ⟨[], [], [q9], [attZero], [respZero]⟩

/-- A completed attempt (`completed_at` set). -/
def attDone : TestAttempt := ⟨aid0, cid0, 0, some 50, 8, 5, 3, 63⟩

/-- Database with the completed attempt. -/
def dbDone : DB := ⟨[cand0], [], [q9], [attDone], []⟩

/-- An open attempt over eight questions. -/
def attScore : TestAttempt := ⟨aid0, cid0, 0, none, 8, 0, 0, 0⟩

/-- A stored response of the eight-question attempt, correct iff `ok`. -/
def respScore (i : Nat) (ok : Bool) : QuestionResponse :=
  ⟨"response-" ++ toString i, aid0, qid0, some (if ok then "A" else "B"), ok, 3⟩

/-- Database with the eight-question attempt and eight stored responses,
five correct and three incorrect. -/
def dbScore : DB :=
  ⟨[], [], [q9], [attScore],
   [respScore 0 true, respScore 1 true, respScore 2 true, respScore 3 true,
    respScore 4 true, respScore 5 false, respScore 6 false, respScore 7 false]⟩

/-- Sections of the spec's aggregation example, in display order. -/
def secMath : TSection := ⟨"s1", "Mathematics", 1⟩

/-- Second section of the aggregation example. -/
def secSci : TSection := ⟨"s2", "Science", 2⟩

/-- Third section of the aggregation example. -/
def secEng : TSection := ⟨"s3", "English", 3⟩

/-- A question of the aggregation example. -/
def q6 (qid sid : String) : Question :=
  ⟨qid, sid, "stem", "1", "2", "3", "4", "A", 30⟩

/-- A stored response of the aggregation example. -/
def resp6 (rid qid : String) (ok : Bool) : QuestionResponse :=
  ⟨rid, aid0, qid, some (if ok then "A" else "B"), ok, 3⟩

/-- The completed attempt of the aggregation example: eight questions in
three sections, answered 2/3, 3/3 and 1/2 correct. -/
def att6 : TestAttempt := ⟨aid0, cid0, 0, some 50, 8, 6, 2, 75⟩

/-- Database of the aggregation example. -/
def db6 : DB :=
  ⟨[], [secMath, secSci, secEng],
   [q6 "q1" "s1", q6 "q2" "s1", q6 "q3" "s1",
    q6 "q4" "s2", q6 "q5" "s2", q6 "q6" "s2",
    q6 "q7" "s3", q6 "q8" "s3"],
   [att6],
   [resp6 "r1" "q1" true, resp6 "r2" "q2" true, resp6 "r3" "q3" false,
    resp6 "r4" "q4" true, resp6 "r5" "q5" true, resp6 "r6" "q6" true,
    resp6 "r7" "q7" true, resp6 "r8" "q8" false]⟩

/-- A roster candidate whose stored email contains an underscore. -/
def candU : Candidate :=
  ⟨"dddddddd-dddd-dddd-dddd-dddddddddddd", "Jane Doe", "jane_doe@example.com",
   "1234567890", .NOT_ATTEMPTED⟩

/-- Roster holding only the underscore-email candidate. -/
def dbV : DB := ⟨[candU], [], [], [], []⟩

/-- The fresh rate-limit map (no identifier has a window yet). -/
def emptyRateMap : RateMap := fun _ => none

/-! ## Helper lemmas -/

/-- A primary-key lookup finds exactly the member row, whenever the key
column is duplicate-free. -/
theorem find_by_key_of_nodup {α : Type} (f : α → String) {l : List α} {x : α}
    (hnd : (l.map f).Nodup) (hx : x ∈ l) :
    l.find? (fun y => f y == f x) = some x := by
  induction l with
  | nil => cases hx
  | cons y t ih =>
    rcases List.mem_cons.mp hx with h | h
    · subst h
      exact List.find?_cons_of_pos _ (by simp)
    · have hy : f y ≠ f x := fun he =>
        (List.nodup_cons.mp hnd).1 (he ▸ List.mem_map_of_mem f h)
      rw [List.find?_cons_of_neg _ (by simp [hy])]
      exact ih (List.nodup_cons.mp hnd).2 h

/-- Two rows of a table with equal primary keys are equal, whenever the
key column is duplicate-free. -/
theorem mem_eq_of_map_nodup {α : Type} (f : α → String) {l : List α} {x y : α}
    (hnd : (l.map f).Nodup) (hx : x ∈ l) (hy : y ∈ l) (hf : f x = f y) : x = y :=
  List.inj_on_of_nodup_map hnd hx hy hf

/-- ASCII lowering reflects the underscore. -/
theorem lowerChar_underscore {c : Char} (h : lowerChar c = '_') : c = '_' := by
  unfold lowerChar at h
  split at h <;> simp_all

/-- Trimming only removes characters. -/
theorem mem_of_mem_trimList {c : Char} {l : List Char} (h : c ∈ trimList l) :
    c ∈ l := by
  unfold trimList at h
  have h1 := (List.dropWhile_sublist _).subset (List.mem_reverse.mp h)
  exact (List.dropWhile_sublist _).subset (List.mem_reverse.mp h1)

/-- `strContains` agrees with list membership of the character. -/
theorem strContains_iff {s : String} {c : Char} :
    strContains s c = true ↔ c ∈ s.data := by
  unfold strContains
  rw [List.any_eq_true]
  constructor
  · rintro ⟨x, hx, he⟩
    have hxc : x = c := by simpa using he
    exact hxc ▸ hx
  · intro h
    exact ⟨c, h, by simp⟩

/-- If the stored column contains an underscore but the submitted string
does not, the case-insensitive comparison of the column with the trimmed
submitted string fails. -/
theorem ilike_ne_of_underscore {col s : String}
    (hcol : strContains col '_' = true) (hs : strContains s '_' = false) :
    ilikeEscaped col (strTrim s) = false := by
  cases hil : ilikeEscaped col (strTrim s) with
  | false => rfl
  | true =>
    exfalso
    have heq : strToLower col = strToLower (strTrim s) := by
      simpa only [ilikeEscaped, beq_iff_eq] using hil
    have h1 : '_' ∈ col.data := strContains_iff.mp hcol
    have h2 : '_' ∈ (strToLower col).data := by
      show '_' ∈ col.data.map lowerChar
      have h := List.mem_map_of_mem lowerChar h1
      have e : lowerChar '_' = '_' := rfl
      rwa [e] at h
    rw [heq] at h2
    have h3 : '_' ∈ (strTrim s).data := by
      have h2' : '_' ∈ (strTrim s).data.map lowerChar := h2
      obtain ⟨d, hd, hld⟩ := List.mem_map.mp h2'
      exact (lowerChar_underscore hld) ▸ hd
    have h4 : '_' ∈ s.data := mem_of_mem_trimList h3
    rw [← strContains_iff, hs] at h4
    exact Bool.noConfusion h4

/-- Over a duplicate-free question bank, membership of a question id in a
section's question list decides exactly `sectionOfQuestion`. -/
theorem any_filter_eq_sectionOf (db : DB) {qid : String} (sid : String)
    (hndq : (db.questions.map Question.id).Nodup)
    (hex : ∃ q ∈ db.questions, q.id = qid) :
    ((db.questions.filter (fun q => q.section_id == sid)).any
        (fun q => q.id == qid))
      = (sectionOfQuestion db qid == some sid) := by
  obtain ⟨q, hq, hqid⟩ := hex
  subst hqid
  have hfind : db.questions.find? (fun y => y.id == q.id) = some q :=
    find_by_key_of_nodup Question.id hndq hq
  rw [Bool.eq_iff_iff]
  constructor
  · intro h
    obtain ⟨q', hq', hbeq⟩ := List.any_eq_true.mp h
    obtain ⟨hq'mem, hq'sec⟩ := List.mem_filter.mp hq'
    have : q' = q := mem_eq_of_map_nodup Question.id hndq hq'mem hq (by simpa using hbeq)
    subst this
    simp only [sectionOfQuestion, hfind, Option.map_some']
    simpa using hq'sec
  · intro h
    simp only [sectionOfQuestion, hfind, Option.map_some'] at h
    refine List.any_eq_true.mpr ⟨q, List.mem_filter.mpr ⟨hq, ?_⟩, by simp⟩
    simpa using h

/-- Sum of a pointwise addition of two maps. -/
theorem sum_map_add {α : Type} (l : List α) (f g : α → Nat) :
    (l.map (fun x => f x + g x)).sum = (l.map f).sum + (l.map g).sum := by
  induction l with
  | nil => simp
  | cons x t ih => simp [ih]; omega

/-- An indicator summed over rows none of which carries the key is 0. -/
theorem sum_indicator_not_mem (secs : List TSection) (k : String)
    (hk : k ∉ secs.map TSection.id) :
    (secs.map (fun s => if k = s.id then 1 else 0)).sum = 0 := by
  induction secs with
  | nil => simp
  | cons s t ih =>
    have hne : k ≠ s.id := fun he => hk (by simp [he])
    have ht : k ∉ t.map TSection.id := fun he => hk (by simp [he])
    simp only [List.map_cons, List.sum_cons, if_neg hne, ih ht]

/-- An indicator summed over duplicate-free rows one of which carries the
key is 1. -/
theorem sum_indicator_mem (secs : List TSection) (k : String)
    (hnd : (secs.map TSection.id).Nodup) (hk : ∃ s ∈ secs, s.id = k) :
    (secs.map (fun s => if k = s.id then 1 else 0)).sum = 1 := by
  induction secs with
  | nil => simp at hk
  | cons s t ih =>
    obtain ⟨s0, hs0, hs0k⟩ := hk
    rcases List.mem_cons.mp hs0 with h | h
    · subst h
      subst hs0k
      have hknot : s0.id ∉ t.map TSection.id := (List.nodup_cons.mp hnd).1
      simp [sum_indicator_not_mem t s0.id hknot]
    · have hne : k ≠ s.id := by
        intro he
        exact (List.nodup_cons.mp hnd).1
          (he ▸ hs0k ▸ List.mem_map_of_mem TSection.id h)
      simp only [List.map_cons, List.sum_cons, if_neg hne,
        ih (List.nodup_cons.mp hnd).2 ⟨s0, h, hs0k⟩]

/-- Per-section counts of rows sum to the total count, when the
section-of map covers every counted row and sections are
duplicate-free. -/
theorem sum_map_countP_partition {α : Type} (secs : List TSection)
    (hnd : (secs.map TSection.id).Nodup) (rs : List α) (p : α → Bool)
    (g : α → Option String)
    (hcov : ∀ r ∈ rs, p r = true → ∃ s ∈ secs, g r = some s.id) :
    (secs.map (fun s => rs.countP (fun r => p r && (g r == some s.id)))).sum
      = rs.countP p := by
  induction rs with
  | nil => simp [List.sum_eq_zero]
  | cons r t ih =>
    have hcov' : ∀ x ∈ t, p x = true → ∃ s ∈ secs, g x = some s.id :=
      fun x hx => hcov x (by simp [hx])
    simp only [List.countP_cons]
    rw [sum_map_add, ih hcov']
    congr 1
    by_cases hp : p r = true
    · obtain ⟨s0, hs0, hgs0⟩ := hcov r (by simp) hp
      have hmap : (secs.map (fun s => if (p r && (g r == some s.id)) = true then 1 else 0))
          = secs.map (fun s => if s0.id = s.id then 1 else 0) := by
        refine List.map_congr_left (fun s _ => ?_)
        simp [hp, hgs0]
      rw [hmap, sum_indicator_mem secs s0.id hnd ⟨s0, hs0, rfl⟩]
      simp [hp]
    · have hp' : p r = false := by
        cases h : p r with
        | false => rfl
        | true => exact absurd h hp
      have hmap : (secs.map (fun s => if (p r && (g r == some s.id)) = true then 1 else 0))
          = secs.map (fun _ => 0) := by
        refine List.map_congr_left (fun s _ => ?_)
        simp [hp']
      rw [hmap]
      simp [hp', List.sum_eq_zero]

/-- Evolution of `checkRateLimit` under repeated requests inside one live
window: with `c` requests already counted, the next requests are allowed
until the count reaches 5, all later ones are rejected, and the window
end never moves. -/
theorem runRequests_window_aux (idf : String) (r : Nat) (ts : List Nat) :
    ∀ (m : RateMap) (c : Nat), 1 ≤ c → c ≤ 5 → m idf = some ⟨c, r⟩ →
      (∀ t ∈ ts, t ≤ r) →
      (runRequests m idf 5 60000 ts).1
          = List.replicate (min ts.length (5 - c)) true
            ++ List.replicate (ts.length - (5 - c)) false ∧
        (runRequests m idf 5 60000 ts).2 idf = some ⟨min (c + ts.length) 5, r⟩ := by
  induction ts with
  | nil =>
    intro m c hc1 hc5 hm _
    constructor
    · simp [runRequests]
    · simp only [runRequests, List.length_nil]
      rw [hm]
      congr 2
      omega
  | cons t ts ih =>
    intro m c hc1 hc5 hm hts
    have hnow : ¬ t > r := by
      have := hts t (by simp)
      omega
    have hts' : ∀ u ∈ ts, u ≤ r := fun u hu => hts u (by simp [hu])
    by_cases h5 : c ≥ 5
    · have hc : c = 5 := le_antisymm hc5 h5
      subst hc
      have hstep : checkRateLimit m idf 5 60000 t = (false, m) := by
        simp [checkRateLimit, hm, hnow]
      have hrec := ih m 5 (by omega) (by omega) hm hts'
      constructor
      · simp only [runRequests, hstep, List.length_cons]
        rw [hrec.1]
        have e1 : min (ts.length + 1) (5 - 5) = 0 := by omega
        have e2 : min ts.length (5 - 5) = 0 := by omega
        have e3 : ts.length + 1 - (5 - 5) = ts.length + 1 := by omega
        have e4 : ts.length - (5 - 5) = ts.length := by omega
        simp [e1, e2, e3, e4, List.replicate_succ]
      · simp only [runRequests, hstep, List.length_cons]
        rw [hrec.2]
        congr 2
        omega
    · have hm' : (rateSet m idf ⟨c + 1, r⟩) idf = some ⟨c + 1, r⟩ := by
        simp [rateSet]
      have hstep : checkRateLimit m idf 5 60000 t = (true, rateSet m idf ⟨c + 1, r⟩) := by
        simp [checkRateLimit, hm, hnow, h5]
      have hrec := ih (rateSet m idf ⟨c + 1, r⟩) (c + 1) (by omega) (by omega) hm' hts'
      constructor
      · simp only [runRequests, hstep, List.length_cons]
        rw [hrec.1]
        have e1 : min (ts.length + 1) (5 - c) = min ts.length (5 - (c + 1)) + 1 := by
          omega
        have e2 : ts.length + 1 - (5 - c) = ts.length - (5 - (c + 1)) := by omega
        rw [e1, e2, List.replicate_succ]
        simp
      · simp only [runRequests, hstep, List.length_cons]
        rw [hrec.2]
        congr 2
        omega

/-- A rejected request leaves the rate-limit map untouched. -/
theorem checkRateLimit_reject_id {m : RateMap} {idf : String}
    {maxRequests windowMs now : Nat}
    (h : (checkRateLimit m idf maxRequests windowMs now).1 = false) :
    (checkRateLimit m idf maxRequests windowMs now).2 = m := by
  unfold checkRateLimit at h ⊢
  cases hm : m idf with
  | none => simp [hm] at h
  | some limit =>
    simp only [hm] at h ⊢
    by_cases h1 : now > limit.resetAt
    · simp [h1] at h
    · by_cases h2 : limit.count ≥ maxRequests
      · simp [h1, h2]
      · simp [h1, h2] at h

/-- A request carrying a `LIKE` wildcard in the name or email draws one
of the 400 validation responses. -/
theorem verify_wildcard_validation (db : DB) (fullName email phone : String)
    (h : (strContains fullName '%' || strContains fullName '_' ||
          strContains email '%' || strContains email '_') = true) :
    (verifyCandidate db fullName email phone).isValidationError = true := by
  unfold verifyCandidate
  split_ifs with h1 h2 h3 <;> rfl

/-- A request carrying a `LIKE` wildcard in the name or email is answered
without consulting the roster: the response is the same over any two
databases. -/
theorem verify_wildcard_db_independent (db db' : DB)
    (fullName email phone : String)
    (h : (strContains fullName '%' || strContains fullName '_' ||
          strContains email '%' || strContains email '_') = true) :
    verifyCandidate db fullName email phone
      = verifyCandidate db' fullName email phone := by
  unfold verifyCandidate
  split_ifs with h1 h2 h3 <;> rfl

/-- A candidate whose stored email contains an underscore is never
returned by `verifyCandidate`, whatever the submitted fields. -/
theorem verify_underscore_blocked (db : DB) (c : Candidate)
    (hc : c ∈ db.candidates) (hu : strContains c.email '_' = true)
    (hnd : (db.candidates.map Candidate.id).Nodup)
    (fullName email phone : String) (n : String) (st : TestStatus) :
    verifyCandidate db fullName email phone ≠ .found c.id n st := by
  intro heq
  unfold verifyCandidate at heq
  by_cases h1 : (strTrim fullName).data.length < 2
  · rw [if_pos h1] at heq
    exact VerifyResult.noConfusion heq
  rw [if_neg h1] at heq
  by_cases h2 : ¬ strContains email '@' = true
  · rw [if_pos h2] at heq
    exact VerifyResult.noConfusion heq
  rw [if_neg h2] at heq
  by_cases h3 : ¬ isTenDigits (strTrim phone) = true
  · rw [if_pos h3] at heq
    exact VerifyResult.noConfusion heq
  rw [if_neg h3] at heq
  by_cases h4 : (strContains fullName '%' || strContains fullName '_' ||
      strContains email '%' || strContains email '_') = true
  · rw [if_pos h4] at heq
    exact VerifyResult.noConfusion heq
  rw [if_neg h4] at heq
  · have hemail : strContains email '_' = false := by
      cases hb : strContains email '_' with
      | false => rfl
      | true => exact absurd (by simp [hb]) h4
    rcases hmatch : db.candidates.filter
        (fun c' => candidateMatches c' fullName email phone) with - | ⟨c', rest⟩
    · rw [hmatch] at heq
      exact VerifyResult.noConfusion heq
    · rcases rest with - | ⟨c'', more⟩
      · rw [hmatch] at heq
        have hcid : c'.id = c.id := by
          injection heq
        have hc'filter : c' ∈ db.candidates.filter
            (fun y => candidateMatches y fullName email phone) := by
          rw [hmatch]
          simp
        have hc'mem : c' ∈ db.candidates := (List.mem_filter.mp hc'filter).1
        have hmatches := (List.mem_filter.mp hc'filter).2
        have hcc : c' = c := mem_eq_of_map_nodup Candidate.id hnd hc'mem hc hcid
        have hil : ilikeEscaped c'.email (strTrim email) = true :=
          (Bool.and_eq_true_iff.mp (Bool.and_eq_true_iff.mp hmatches).1).2
        rw [hcc, ilike_ne_of_underscore hu hemail] at hil
        exact Bool.noConfusion hil
      · rw [hmatch] at heq
        exact VerifyResult.noConfusion heq

/-- The per-section correct count `get_results` computes by filtering the
attempt's responses through the section's question list equals the count
of the attempt's correct responses whose question belongs to the section,
over a duplicate-free question bank with no dangling response. -/
theorem section_scores_canonical (db : DB) (aid : String)
    (hndq : (db.questions.map Question.id).Nodup)
    (hrq : ∀ r ∈ db.responses, r.attempt_id = aid →
      ∃ q ∈ db.questions, q.id = r.question_id) :
    ((sortSections db.sections).map (fun s =>
      { sectionName := s.name
        total := (db.questions.filter (fun q => q.section_id == s.id)).length
        correct := (((db.responses.filter (fun r => r.attempt_id == aid)).filter
            (fun r => (db.questions.filter (fun q => q.section_id == s.id)).any
              (fun q => q.id == r.question_id))).filter
            (fun r => r.is_correct)).length : SectionScore }))
      = (sortSections db.sections).map (fun s =>
      { sectionName := s.name
        total := (db.questions.filter (fun q => q.section_id == s.id)).length
        correct := (db.responses.filter (fun r => r.attempt_id == aid)).countP
            (fun r => r.is_correct &&
              (sectionOfQuestion db r.question_id == some s.id)) : SectionScore }) := by
  refine List.map_congr_left (fun s hs => ?_)
  congr 1
  rw [← List.countP_eq_length_filter, List.countP_filter]
  refine List.countP_congr (fun r hr => ?_)
  have hrmem : r ∈ db.responses := (List.mem_filter.mp hr).1
  have hraid : r.attempt_id = aid := by simpa using (List.mem_filter.mp hr).2
  rw [any_filter_eq_sectionOf db s.id hndq (hrq r hrmem hraid)]

/-! ## Claim theorems -/

/-- C1: evaluation of the code at the failing interleaving.  Two
concurrent `create_attempt` calls for the same `NOT_ATTEMPTED` candidate,
with both candidate reads scheduled before either write, BOTH finish
successfully and TWO attempt rows for the candidate exist afterwards —
the code's read-then-insert sequence is not atomic, so the claimed
"exactly one success and N−1 Conflict failures" fails under this
interleaving (the candidate's status still ends `ATTEMPTED`). -/
theorem create_attempt_race_two_successes :
    db0.candidates.map (fun c => c.test_status) = [.NOT_ATTEMPTED] ∧
    raceResult.2.map isSuccess = [true, true] ∧
    (raceResult.1.attempts.filter (fun a => a.candidate_id == cid0)).length = 2 ∧
    raceResult.1.candidates.map (fun c => c.test_status) = [.ATTEMPTED] := by
  decide

/-- C9: `save_response` accepts three submissions for the same
`(attempt, question)` pair of a two-question attempt, and
`complete_attempt` counts every stored response row, ending with
`correct_answers = 3 > total_questions = 2` and
`total_score = 150 > 100`. -/
theorem duplicate_responses_inflate_score :
    att9.total_questions = 2 ∧ runC9 = some (3, 150) ∧ 2 < 3 ∧ 100 < 150 := by
  decide

/-- C4 counterexample: for an attempt stored with `total_questions = 0`
that has one correct response, `complete_attempt` does NOT produce
`total_score = 0` as the claim states: the `attempt.total_questions ||
responses.length || 0` fallback divides by the response count instead,
yielding `total_score = 100`. -/
theorem complete_attempt_zero_total_questions_nonzero_score :
    attZero.total_questions = 0 ∧
    (complete_attempt dbZero aid0 7).toOption.map (fun p => p.2.total_score)
      = some 100 := by
  decide

/-- C2: for well-formed inputs, `create_attempt` signals NotFound when no
candidate with the requested id exists, signals the AlreadyAttempted
conflict when the candidate's status is `ATTEMPTED`, and otherwise
succeeds, appending a new attempt with zeroed counters and a null
completion timestamp and flipping the candidate's status to
`ATTEMPTED`. -/
theorem create_attempt_spec (db : DB) (cid : String) (tq : Int) (now : Nat)
    (hcid : cid ≠ "") (huuid : uuidTest cid = true) (htq : 0 ≤ tq)
    (hnd : (db.candidates.map Candidate.id).Nodup) :
    ((∀ c ∈ db.candidates, c.id ≠ cid) →
      create_attempt db cid tq now = .error (.notFound "Candidate not found")) ∧
    (∀ c ∈ db.candidates, c.id = cid →
      (c.test_status = .ATTEMPTED →
        create_attempt db cid tq now = .error .alreadyAttempted) ∧
      (c.test_status ≠ .ATTEMPTED →
        ∃ db' a, create_attempt db cid tq now = .ok (db', a) ∧
          a.candidate_id = cid ∧ a.completed_at = none ∧
          a.correct_answers = 0 ∧ a.incorrect_answers = 0 ∧ a.total_score = 0 ∧
          a.total_questions = tq.toNat ∧
          db'.attempts = db.attempts ++ [a] ∧
          db'.responses = db.responses ∧
          (∀ c' ∈ db'.candidates, c'.id = cid → c'.test_status = .ATTEMPTED))) := by
  have hval : ∀ (x : Except Err (DB × TestAttempt)),
      (match db.candidates.find? (fun c => c.id == cid) with
        | none => Except.error (Err.notFound "Candidate not found")
        | some candidate =>
          if candidate.test_status = .ATTEMPTED then
            Except.error Err.alreadyAttempted
          else
            let attempt : TestAttempt :=
              { id := genAttemptId db
                candidate_id := cid
                started_at := now
                completed_at := none
                total_questions := tq.toNat
                correct_answers := 0
                incorrect_answers := 0
                total_score := 0 }
            let db1 : DB := { db with attempts := db.attempts ++ [attempt] }
            let db2 : DB :=
              { db1 with
                candidates := db1.candidates.map (fun c =>
                  if c.id == cid then { c with test_status := .ATTEMPTED } else c) }
            .ok (db2, attempt)) = x →
      create_attempt db cid tq now = x := by
    intro x hx
    rw [← hx]
    unfold create_attempt
    rw [if_neg hcid, if_neg (by simp [huuid]), if_neg (by omega)]
  constructor
  · intro habs
    apply hval
    have hfind : db.candidates.find? (fun c => c.id == cid) = none :=
      List.find?_eq_none.mpr (fun x hx => by simp [habs x hx])
    rw [hfind]
  · intro c hc hcid'
    subst hcid'
    have hfind : db.candidates.find? (fun y => y.id == c.id) = some c :=
      find_by_key_of_nodup Candidate.id hnd hc
    constructor
    · intro hst
      apply hval
      rw [hfind]
      simp [hst]
    · intro hst
      have hrun := hval _ rfl
      rw [hfind] at hrun
      simp only [if_neg hst] at hrun
      refine ⟨_, _, hrun, rfl, rfl, rfl, rfl, rfl, rfl, rfl, rfl, ?_⟩
      intro c' hc' hid
      obtain ⟨c0, hc0, rfl⟩ := List.mem_map.mp hc'
      by_cases h0 : (c0.id == c.id) = true
      · simp [h0]
      · rw [if_neg h0] at hid ⊢
        exact absurd (by simpa using hid) (by simpa using h0)

/-- C2 witness: creating an attempt for the roster candidate of `db0`
succeeds with zeroed counters and a null completion timestamp. -/
theorem create_attempt_spec_witness :
    ∃ db' a, create_attempt db0 cid0 8 0 = .ok (db', a) ∧
      a.completed_at = none ∧ a.correct_answers = 0 ∧
      a.incorrect_answers = 0 ∧ a.total_score = 0 := by
  have h := (create_attempt_spec db0 cid0 8 0 (by decide) (by decide) (by decide)
    (by decide)).2 cand0 (by simp [db0]) rfl
  obtain ⟨db', a, heq, _, hdone, hca, hia, hts, _⟩ := h.2 (by decide)
  exact ⟨db', a, heq, hdone, hca, hia, hts⟩

/-- C3: for well-formed inputs, an existing open attempt and an existing
question, `save_response` persists and returns an `is_correct` flag equal
to `selected_answer ≠ null ∧ selected_answer = correct_answer`, computed
from the question bank, and the result does not depend on the
caller-supplied correctness value. -/
theorem save_response_is_correct_server_side (db : DB) (sa : Option String)
    (tt : Int) (cb : Option Bool) (a : TestAttempt) (q : Question)
    (ha1 : a.id ≠ "") (ha2 : uuidTest a.id = true)
    (hq1 : q.id ≠ "") (hq2 : uuidTest q.id = true)
    (htt : 0 ≤ tt)
    (hsa : sa = none ∨ sa ∈ [some "A", some "B", some "C", some "D"])
    (hnda : (db.attempts.map TestAttempt.id).Nodup)
    (ha : a ∈ db.attempts) (hopen : a.completed_at = none)
    (hndq : (db.questions.map Question.id).Nodup)
    (hq : q ∈ db.questions) :
    ∃ db' r, save_response db a.id q.id sa tt cb = .ok (db', r) ∧
      r.is_correct = decide (sa ≠ none ∧ sa = some q.correct_answer) ∧
      r.selected_answer = sa ∧ r.attempt_id = a.id ∧ r.question_id = q.id ∧
      db'.responses = db.responses ++ [r] ∧ db'.attempts = db.attempts ∧
      (∀ cb', save_response db a.id q.id sa tt cb'
        = save_response db a.id q.id sa tt cb) := by
  have hfa : db.attempts.find? (fun y => y.id == a.id) = some a :=
    find_by_key_of_nodup TestAttempt.id hnda ha
  have hfq : db.questions.find? (fun y => y.id == q.id) = some q :=
    find_by_key_of_nodup Question.id hndq hq
  have hsab : badSelectedAnswer sa = false := by
    rcases hsa with h | h
    · subst h; rfl
    · simp only [List.mem_cons, List.not_mem_nil, or_false] at h
      rcases h with h | h | h | h <;> (subst h; decide)
  have hrun : save_response db a.id q.id sa tt cb =
      .ok ({ db with responses := db.responses ++
          [⟨genResponseId db, a.id, q.id, sa, computeIsCorrect sa q, tt.toNat⟩] },
        ⟨genResponseId db, a.id, q.id, sa, computeIsCorrect sa q, tt.toNat⟩) := by
    unfold save_response
    rw [if_neg (by simp [ha1, ha2]), if_neg (by simp [hq1, hq2]),
      if_neg (by omega), if_neg (by simp [hsab]), hfa]
    simp [hopen, hfq]
  refine ⟨_, _, hrun, ?_, rfl, rfl, rfl, rfl, rfl, fun cb' => rfl⟩
  show computeIsCorrect sa q = decide (sa ≠ none ∧ sa = some q.correct_answer)
  cases sa with
  | none => rfl
  | some s =>
    show (s == q.correct_answer) = decide (some s ≠ none ∧ some s = some q.correct_answer)
    rw [Bool.eq_iff_iff]
    simp

/-- C3 witness: recording the correct answer `A` for the question of
`db9` persists `is_correct = true` even though the caller claimed
`false`. -/
theorem save_response_is_correct_server_side_witness :
    ∃ db' r, save_response db9 aid0 qid0 (some "A") 5 (some false) = .ok (db', r) ∧
      r.is_correct = true := by
  obtain ⟨db', r, heq, hic, -, -, -, -, -, -⟩ :=
    save_response_is_correct_server_side db9 (some "A") 5 (some false) att9 q9
      (by decide) (by decide) (by decide) (by decide) (by decide) (by decide)
      (by decide) (by decide) rfl (by decide) (by decide)
  exact ⟨db', r, heq, by rw [hic]; decide⟩

/-- C5: once an attempt's completion timestamp is set, both
`save_response` and `complete_attempt` (on well-formed inputs) answer the
AlreadyCompleted conflict and write nothing: the database is
unchanged. -/
theorem completed_attempt_immutable (db : DB) (qid : String)
    (sa : Option String) (tt : Int) (cb : Option Bool) (now t : Nat)
    (a : TestAttempt)
    (ha1 : a.id ≠ "") (ha2 : uuidTest a.id = true)
    (hq1 : qid ≠ "") (hq2 : uuidTest qid = true)
    (htt : 0 ≤ tt)
    (hsa : badSelectedAnswer sa = false)
    (hnd : (db.attempts.map TestAttempt.id).Nodup)
    (ha : a ∈ db.attempts) (hdone : a.completed_at = some t) :
    save_response db a.id qid sa tt cb = .error .alreadyCompleted ∧
    complete_attempt db a.id now = .error .alreadyCompleted ∧
    dbAfter db (save_response db a.id qid sa tt cb) = db ∧
    dbAfter db (complete_attempt db a.id now) = db := by
  have hfa : db.attempts.find? (fun y => y.id == a.id) = some a :=
    find_by_key_of_nodup TestAttempt.id hnd ha
  have h1 : save_response db a.id qid sa tt cb = .error .alreadyCompleted := by
    unfold save_response
    rw [if_neg (by simp [ha1, ha2]), if_neg (by simp [hq1, hq2]),
      if_neg (by omega), if_neg (by simp [hsa]), hfa]
    simp [hdone]
  have h2 : complete_attempt db a.id now = .error .alreadyCompleted := by
    unfold complete_attempt
    rw [if_neg (by simp [ha1, ha2]), hfa]
    simp [hdone]
  exact ⟨h1, h2, by rw [h1]; rfl, by rw [h2]; rfl⟩

/-- C5 witness: the completed attempt of `dbDone` rejects both a further
response and a second completion. -/
theorem completed_attempt_immutable_witness :
    save_response dbDone aid0 qid0 (some "A") 5 none = .error .alreadyCompleted ∧
    complete_attempt dbDone aid0 99 = .error .alreadyCompleted := by
  have h := completed_attempt_immutable dbDone qid0 (some "A") 5 none 99 50
    attDone (by decide) (by decide) (by decide) (by decide) (by decide)
    (by decide) (by decide) (by decide) rfl
  exact ⟨h.1, h.2.1⟩

/-- C4 (amended): `complete_attempt` recomputes the counters from the
stored responses and scores with `round(100·correct/T)` rounded half-up,
where `T` is the attempt's stored `total_questions` when it is nonzero
and otherwise the number of stored responses (the JavaScript
`attempt.total_questions || responses.length || 0` fallback); the score is
0 when that fallback is 0, i.e. only when `total_questions = 0` and no
responses are stored. -/
theorem complete_attempt_scoring (db : DB) (now : Nat) (a : TestAttempt)
    (ha1 : a.id ≠ "") (ha2 : uuidTest a.id = true)
    (hnd : (db.attempts.map TestAttempt.id).Nodup)
    (ha : a ∈ db.attempts) (hopen : a.completed_at = none) :
    ∃ db' a', complete_attempt db a.id now = .ok (db', a') ∧
      a'.correct_answers
        = (db.responses.filter (fun r => r.attempt_id == a.id)).countP
            (fun r => r.is_correct) ∧
      a'.incorrect_answers
        = (db.responses.filter (fun r => r.attempt_id == a.id)).countP
            (fun r => !r.is_correct) ∧
      a'.total_questions = a.total_questions ∧
      a'.completed_at = some now ∧
      a'.total_score =
        (if (if a.total_questions ≠ 0 then a.total_questions
             else (db.responses.filter (fun r => r.attempt_id == a.id)).length) > 0
         then
           scorePercent
             ((db.responses.filter (fun r => r.attempt_id == a.id)).countP
               (fun r => r.is_correct))
             (if a.total_questions ≠ 0 then a.total_questions
              else (db.responses.filter (fun r => r.attempt_id == a.id)).length)
         else 0) := by
  have hfa : db.attempts.find? (fun y => y.id == a.id) = some a :=
    find_by_key_of_nodup TestAttempt.id hnd ha
  unfold complete_attempt
  rw [if_neg (by simp [ha1, ha2]), hfa]
  simp only [hopen, Option.isSome_none, Bool.false_eq_true, if_false]
  refine ⟨_, _, rfl, ?_, ?_, rfl, rfl, ?_⟩
  · exact (List.countP_eq_length_filter _ _).symm
  · exact (List.countP_eq_length_filter _ _).symm
  · rw [List.countP_eq_length_filter]

/-- C4 witness: the eight-question attempt of `dbScore` with five correct
responses completes with `total_score = 63` (`round(62.5)` half-up). -/
theorem complete_attempt_scoring_witness :
    ∃ db' a', complete_attempt dbScore aid0 77 = .ok (db', a') ∧
      a'.correct_answers = 5 ∧ a'.total_score = 63 := by
  obtain ⟨db', a', heq, hc, -, -, -, hs⟩ :=
    complete_attempt_scoring dbScore 77 attScore (by decide) (by decide)
      (by decide) (by decide) rfl
  refine ⟨db', a', heq, ?_, ?_⟩
  · rw [hc]; decide
  · rw [hs]; decide

/-- C7: the serialized `save_response` payload, the serialized attempt
rows, the public `questions_public` view and the section scores never
carry the `correct_answer` column; it appears only among the
`detailedQuestions` keys of `get_results`, and `get_results` (on
well-formed inputs) answers the not-yet-completed conflict for every
attempt whose completion timestamp is unset. -/
theorem no_answer_leakage (db : DB) (a : TestAttempt)
    (ha1 : a.id ≠ "") (ha2 : uuidTest a.id = true)
    (hnd : (db.attempts.map TestAttempt.id).Nodup)
    (ha : a ∈ db.attempts) (hopen : a.completed_at = none) :
    "correct_answer" ∉ responseRowKeys ∧
    "correct_answer" ∉ attemptRowKeys ∧
    "correct_answer" ∉ questionsPublicViewKeys ∧
    "correct_answer" ∉ sectionScoreKeys ∧
    "correct_answer" ∈ detailedQuestionKeys ∧
    get_results db a.id = .error .notCompleted := by
  refine ⟨by decide, by decide, by decide, by decide, by decide, ?_⟩
  have hfa : db.attempts.find? (fun y => y.id == a.id) = some a :=
    find_by_key_of_nodup TestAttempt.id hnd ha
  unfold get_results
  rw [if_neg (by simp [ha1, ha2]), hfa]
  simp [hopen]

/-- C7 witness: the open attempt of `db9` cannot obtain results. -/
theorem no_answer_leakage_witness :
    get_results db9 aid0 = .error .notCompleted ∧
    "correct_answer" ∉ responseRowKeys := by
  have h := no_answer_leakage db9 att9 (by decide) (by decide) (by decide)
    (by decide) rfl
  exact ⟨h.2.2.2.2.2, h.1⟩

/-- C8: for a fresh client identifier, the `verify-candidate` budget of
5 requests per 60000 ms window allows exactly the first
`min (n+1) 5` of `n+1` requests falling inside the window opened by the
first request, rejects every further one, the stored window never counts
a rejected request (the count ends at `min (n+1) 5` and the window end
stays put), and any rejected request anywhere leaves the map
untouched. -/
theorem verify_rate_limit (m : RateMap) (idf : String) (t0 : Nat)
    (ts : List Nat) (hm : m idf = none)
    (hts : ∀ t ∈ ts, t ≤ t0 + verifyWindowMs) :
    (runRequests m idf verifyMaxRequests verifyWindowMs (t0 :: ts)).1
      = List.replicate (min (ts.length + 1) 5) true
        ++ List.replicate (ts.length + 1 - 5) false ∧
    (runRequests m idf verifyMaxRequests verifyWindowMs (t0 :: ts)).2 idf
      = some ⟨min (ts.length + 1) 5, t0 + verifyWindowMs⟩ ∧
    (∀ m' now,
      (checkRateLimit m' idf verifyMaxRequests verifyWindowMs now).1 = false →
      (checkRateLimit m' idf verifyMaxRequests verifyWindowMs now).2 = m') := by
  simp only [verifyMaxRequests, verifyWindowMs] at hts ⊢
  have hstep : checkRateLimit m idf 5 60000 t0
      = (true, rateSet m idf ⟨1, t0 + 60000⟩) := by
    simp [checkRateLimit, hm]
  have hm' : (rateSet m idf ⟨1, t0 + 60000⟩) idf = some ⟨1, t0 + 60000⟩ := by
    simp [rateSet]
  have haux := runRequests_window_aux idf (t0 + 60000) ts
    (rateSet m idf ⟨1, t0 + 60000⟩) 1 (by omega) (by omega) hm' hts
  refine ⟨?_, ?_, fun m' now h => checkRateLimit_reject_id h⟩
  · simp only [runRequests, hstep]
    rw [haux.1]
    have e1 : min (ts.length + 1) 5 = min ts.length (5 - 1) + 1 := by omega
    have e2 : ts.length + 1 - 5 = ts.length - (5 - 1) := by omega
    rw [e1, e2, List.replicate_succ]
    simp
  · simp only [runRequests, hstep]
    rw [haux.2]
    congr 2
    omega

/-- C8 witness: seven immediate requests from a fresh identifier draw
five allows and then two distinct too-many-requests rejections. -/
theorem verify_rate_limit_witness :
    (runRequests (fun _ => none) "verify:ip" verifyMaxRequests verifyWindowMs
      [0, 1, 2, 3, 4, 5, 6]).1
      = [true, true, true, true, true, false, false] := by
  have h := verify_rate_limit (fun _ => none) "verify:ip" 0 [1, 2, 3, 4, 5, 6]
    rfl (by decide)
  rw [h.1]
  decide

/-- C10: a request whose name or email contains `%` or `_` draws a
validation response computed without any roster lookup (the answer is
independent of the database); consequently a roster candidate whose
stored email contains `_` can never be verified, whatever the submitted
fields. -/
theorem wildcard_rejection_blocks_underscore_email :
    (∀ db db' fullName email phone,
      (strContains fullName '%' || strContains fullName '_' ||
       strContains email '%' || strContains email '_') = true →
      (verifyCandidate db fullName email phone).isValidationError = true ∧
      verifyCandidate db fullName email phone
        = verifyCandidate db' fullName email phone) ∧
    (∀ db c, c ∈ db.candidates → strContains c.email '_' = true →
      (db.candidates.map Candidate.id).Nodup →
      ∀ fullName email phone n st,
        verifyCandidate db fullName email phone ≠ .found c.id n st) :=
  ⟨fun db db' fullName email phone h =>
    ⟨verify_wildcard_validation db fullName email phone h,
     verify_wildcard_db_independent db db' fullName email phone h⟩,
   fun db c hc hu hnd fullName email phone n st =>
    verify_underscore_blocked db c hc hu hnd fullName email phone n st⟩

/-- C10 witness: submitting the underscore candidate's own exact roster
fields is rejected as invalid characters, and no submission at all can
return that candidate. -/
theorem wildcard_rejection_blocks_underscore_email_witness :
    (verifyCandidate dbV "Jane Doe" "jane_doe@example.com" "1234567890").isValidationError
      = true ∧
    verifyCandidate dbV "Jane Doe" "janedoe@example.com" "1234567890"
      ≠ .found candU.id candU.full_name candU.test_status := by
  constructor
  · exact (wildcard_rejection_blocks_underscore_email.1 dbV dbV "Jane Doe"
      "jane_doe@example.com" "1234567890" (by decide)).1
  · exact wildcard_rejection_blocks_underscore_email.2 dbV candU (by decide)
      (by decide) (by decide) "Jane Doe" "janedoe@example.com" "1234567890"
      candU.full_name candU.test_status

/-- C6: on a completed attempt (over a well-formed database whose stored
`correct_answers` equal the count of correct stored responses, as
`complete_attempt` writes them), `get_results` succeeds, lists
`sectionScores` over the sections sorted by display order, scores each
entry with the number of the attempt's correct responses to that
section's questions, and those per-section counts sum to the attempt's
overall `correct_answers`. -/
theorem get_results_section_scores (db : DB) (a : TestAttempt) (t : Nat)
    (ha1 : a.id ≠ "") (ha2 : uuidTest a.id = true)
    (hnda : (db.attempts.map TestAttempt.id).Nodup)
    (ha : a ∈ db.attempts) (hdone : a.completed_at = some t)
    (hndq : (db.questions.map Question.id).Nodup)
    (hnds : (db.sections.map TSection.id).Nodup)
    (hrq : ∀ r ∈ db.responses, r.attempt_id = a.id →
      ∃ q ∈ db.questions, q.id = r.question_id)
    (hqs : ∀ q ∈ db.questions, ∃ s ∈ db.sections, s.id = q.section_id)
    (hcnt : a.correct_answers
      = (db.responses.filter (fun r => r.attempt_id == a.id)).countP
          (fun r => r.is_correct)) :
    ∃ payload, get_results db a.id = .ok payload ∧
      payload.sectionScores = (sortSections db.sections).map (fun s =>
        { sectionName := s.name
          total := (db.questions.filter (fun q => q.section_id == s.id)).length
          correct := (db.responses.filter (fun r => r.attempt_id == a.id)).countP
            (fun r => r.is_correct &&
              (sectionOfQuestion db r.question_id == some s.id)) : SectionScore }) ∧
      (payload.sectionScores.map SectionScore.correct).sum = a.correct_answers ∧
      List.Sorted (fun s₁ s₂ : TSection => s₁.display_order ≤ s₂.display_order)
        (sortSections db.sections) ∧
      (sortSections db.sections).Perm db.sections := by
  have hfa : db.attempts.find? (fun y => y.id == a.id) = some a :=
    find_by_key_of_nodup TestAttempt.id hnda ha
  have hcov : ∀ r ∈ db.responses.filter (fun r => r.attempt_id == a.id),
      r.is_correct = true →
      ∃ s ∈ db.sections, sectionOfQuestion db r.question_id = some s.id := by
    intro r hr _
    have hrmem : r ∈ db.responses := (List.mem_filter.mp hr).1
    have hraid : r.attempt_id = a.id := by simpa using (List.mem_filter.mp hr).2
    obtain ⟨q, hq, hqid⟩ := hrq r hrmem hraid
    obtain ⟨s, hsmem, hsid⟩ := hqs q hq
    refine ⟨s, hsmem, ?_⟩
    rw [← hqid]
    have hfq : db.questions.find? (fun y => y.id == q.id) = some q :=
      find_by_key_of_nodup Question.id hndq hq
    simp [sectionOfQuestion, hfq, hsid]
  unfold get_results
  rw [if_neg (by simp [ha1, ha2]), hfa]
  simp only [hdone, Option.isNone_some, Bool.false_eq_true, if_false]
  refine ⟨_, rfl, section_scores_canonical db a.id hndq hrq, ?_,
    List.sorted_insertionSort _ _, List.perm_insertionSort _ _⟩
  rw [section_scores_canonical db a.id hndq hrq, List.map_map]
  have hperm : (sortSections db.sections).Perm db.sections :=
    List.perm_insertionSort _ _
  rw [List.Perm.sum_eq (hperm.map _)]
  have hpart := sum_map_countP_partition db.sections hnds
    (db.responses.filter (fun r => r.attempt_id == a.id))
    (fun r => r.is_correct) (fun r => sectionOfQuestion db r.question_id) hcov
  simpa [Function.comp] using hpart.trans hcnt.symm

/-- C6 witness: on the aggregation example (Mathematics 2/3, Science 3/3,
English 1/2), `get_results` succeeds, the section scores appear in
display order with the expected counts, and they sum to the attempt's
`correct_answers = 6`. -/
theorem get_results_section_scores_witness :
    (∃ payload, get_results db6 aid0 = .ok payload ∧
      (payload.sectionScores.map SectionScore.correct).sum = att6.correct_answers) ∧
    (get_results db6 aid0).toOption.map (fun p => p.sectionScores)
      = some [⟨"Mathematics", 3, 2⟩, ⟨"Science", 3, 3⟩, ⟨"English", 2, 1⟩] := by
  constructor
  · obtain ⟨payload, heq, -, hsum, -, -⟩ :=
      get_results_section_scores db6 att6 50 (by decide) (by decide) (by decide)
        (by decide) rfl (by decide) (by decide) (by decide) (by decide) (by decide)
    exact ⟨payload, heq, hsum⟩
  · decide

end NiosTest
